import Mathlib

/-!
Verification development for the thumbnail service module
(src/thumbservice/common.py).

The 2D numpy arrays of the Python code are modelled as `Arr2 α`:
a pair of dimensions together with a total data function (entries
outside the bounds are junk, exactly like memory outside a numpy
view is never read by the code).  Python floats are modelled as an
arbitrary linear ordered field `α`; the concrete pipeline instantiates
`α := ℝ` and the elementwise square root `np.power(img, 0.5)` with
`Real.sqrt`, which is passed as an explicit function parameter `sq`
so that the rest of the pipeline stays executable.  Fallible numpy
operations (reshape with a mismatched element count, errors that
abort the Python process) are modelled with `Option`.
-/

/-- A 2D numeric array: shape plus data function, as in numpy. -/
structure Arr2 (α : Type) where
  rows : Nat
  cols : Nat
  data : Nat → Nat → α

/-- Elementwise map, preserving the shape (numpy ufunc application). -/
def Arr2.map {α β : Type} (f : α → β) (a : Arr2 α) : Arr2 β :=
  ⟨a.rows, a.cols, fun i j => f (a.data i j)⟩

/-- Index of the first occurrence of the maximum among
`f 0, …, f (n-1)`, scanning left to right and replacing the current
best only on a strictly larger value: the semantics of `np.argmax`
on the flattened array. -/
def argmaxLin {α : Type} [LinearOrder α] (f : Nat → α) : Nat → Nat
  | 0 => 0
  | n + 1 =>
    let b := argmaxLin f n
    if f b < f n then n else b

/-- Maximum of `f 0, …, f (n-1)` (the semantics of `np.max` on the
flattened array; numpy raises on an empty array, so only `0 < n`
is meaningful). -/
def maxLin {α : Type} [LinearOrder α] (f : Nat → α) : Nat → α
  | 0 => f 0
  | n + 1 => max (maxLin f n) (f n)

/-- Row-major flattening of a 2D array, as numpy stores C-order data. -/
def Arr2.flat {α : Type} (a : Arr2 α) : Nat → α :=
  fun l => a.data (l / a.cols) (l % a.cols)

/-- np.max of a 2D array (meaningful for nonempty arrays). -/
def maxVal {α : Type} [LinearOrder α] (a : Arr2 α) : α :=
  maxLin a.flat (a.rows * a.cols)

/-- Model of `rebin(arr, binning)` from common.py:

    xlim = arr.shape[0] - arr.shape[0] % binning
    ylim = arr.shape[1] - arr.shape[1] % binning
    new_shape = (int(arr.shape[0]/binning), int(arr.shape[1]/binning))
    shape = (new_shape[0], arr.shape[0] // new_shape[0],
             new_shape[1], arr.shape[1] // new_shape[1])
    return arr[0:xlim,0:ylim].reshape(shape).mean(-1).mean(1)

`none` models a Python exception: a ZeroDivisionError when a quotient
`new_shape[i]` is zero, or the ValueError numpy raises when the
truncated array's element count does not match the reshape target.
The entry formula spells out C-order reshape of the truncated view
followed by the mean over the last axis and then over axis 1. -/
def rebin {α : Type} [LinearOrderedField α] (arr : Arr2 α) (binning : Nat) :
    Option (Arr2 α) :=
  let xlim := arr.rows - arr.rows % binning
  let ylim := arr.cols - arr.cols % binning
  let q1 := arr.rows / binning
  let q2 := arr.cols / binning
  if q1 = 0 ∨ q2 = 0 then none
  else
    let b1 := arr.rows / q1
    let b2 := arr.cols / q2
    if xlim * ylim = q1 * b1 * (q2 * b2) then
      some ⟨q1, q2, fun i j =>
        (∑ u ∈ Finset.range b1,
          (∑ v ∈ Finset.range b2,
            arr.data ((((i * b1 + u) * q2 + j) * b2 + v) / ylim)
                     ((((i * b1 + u) * q2 + j) * b2 + v) % ylim)) / (b2 : α))
          / (b1 : α)⟩
    else none

/-- Normalization of one bound of a Python slice `a[x1:x2]` for an axis
of length `n`: negative indices count from the end, and the result is
clamped into `[0, n]`. -/
def sliceBound (n : Nat) (i : Int) : Nat :=
  let j := if i < 0 then i + n else i
  if j < 0 then 0 else min j.toNat n

/-- Model of the 2D basic slice `arr[x1:x2, y1:y2]` (step 1). -/
def pySlice2 {α : Type} (a : Arr2 α) (x1 x2 y1 y2 : Int) : Arr2 α :=
  ⟨sliceBound a.rows x2 - sliceBound a.rows x1,
   sliceBound a.cols y2 - sliceBound a.cols y1,
   fun i j => a.data (sliceBound a.rows x1 + i) (sliceBound a.cols y1 + j)⟩

/-- Model of `find_planet(data)` from common.py:

    binning = 3
    rebinned = rebin(data, binning)
    max_coord = np.unravel_index(np.argmax(rebinned), rebinned.shape)
    x1, x2 = binning*max_coord[0]-300, binning*max_coord[0]+300
    y1, y2 = binning*max_coord[1]-300, binning*max_coord[1]+300
    return data[x1:x2,y1:y2]

A `none` from `rebin` (a raised exception) propagates. -/
def findPlanet {α : Type} [LinearOrderedField α] (data : Arr2 α) :
    Option (Arr2 α) :=
  match rebin data 3 with
  | none => none
  | some rebinned =>
    let lin := argmaxLin rebinned.flat (rebinned.rows * rebinned.cols)
    let mx := lin / rebinned.cols
    let my := lin % rebinned.cols
    some (pySlice2 data (3 * (mx : Int) - 300) (3 * (mx : Int) + 300)
                        (3 * (my : Int) - 300) (3 * (my : Int) + 300))

/-- A loaded FITS file: the science extension's 2D data together with
the two header cards the code reads.  FITS header lookup is
case-insensitive, so the accesses `header['FILTER']` and
`header['object']` in the source read the fields `FILTER` and
`OBJECT` below. -/
structure FitsFile (α : Type) where
  data : Arr2 α
  FILTER : String
  OBJECT : String

/-- Model of the background suppression `img[img < cutoff] = 0` with
`cutoff = 200` from planet_image_data. -/
def applyCutoff {α : Type} [LinearOrderedField α] (a : Arr2 α) : Arr2 α :=
  ⟨a.rows, a.cols, fun i j => if a.data i j < 200 then 0 else a.data i j⟩

/-- Python str.lower(), as a per-character map.  Header values are
ASCII, where this agrees with Python's Unicode lowercasing. -/
def pyLower (s : String) : String := ⟨s.data.map Char.toLower⟩

/-- The gain `n` and target multiplier `planet` computed by
planet_image_data from the header cards, returned as `(planet, n)`:

    n = 1.
    if colour and (header['FILTER'].lower() == 'h-alpha' or header['FILTER'] == 'V'):
        n = 1.1
    if header['object'].lower() == 'saturn':    planet = 5.
    elif header['object'].lower() == 'jupiter': planet = 1.4
    elif header['object'].lower() == 'mars':    planet = 5.
    elif header['object'].lower() == 'uranus':
        n = 1.
        planet = 0.5
        if header['FILTER'] == 'B': n = 1.5
    else: planet = 1.0
-/
def planetParams (obj fil : String) (colour : Bool) : ℚ × ℚ :=
  let n : ℚ := 1
  let n := if colour = true ∧ (pyLower fil = "h-alpha" ∨ fil = "V") then 11/10 else n
  if pyLower obj = "saturn" then (5, n)
  else if pyLower obj = "jupiter" then (14/10, n)
  else if pyLower obj = "mars" then (5, n)
  else if pyLower obj = "uranus" then (1/2, if fil = "B" then 3/2 else 1)
  else (1, n)

/-- The scaled display array `vals = planet*n*np.power(img, 0.5)` of
planet_image_data, before dynamic-range normalization.  The elementwise
square root is supplied as `sq` (instantiated with `Real.sqrt` over ℝ). -/
def displayStage {α : Type} [LinearOrderedField α] (sq : α → α)
    (f : FitsFile α) (colour : Bool) : Arr2 α :=
  let img := applyCutoff f.data
  let p := planetParams f.OBJECT f.FILTER colour
  Arr2.map (fun x => (p.1 : α) * (p.2 : α) * sq x) img

/-- Model of planet_image_data (after the file read): background
suppression, power-law scaling, then the normalization

    if np.max(vals) > 255:
        vals = vals/np.max(vals)*255

np.max raises on an empty array, so the model is meaningful for
nonempty frames (every use). -/
def planetImageDataWith {α : Type} [LinearOrderedField α] (sq : α → α)
    (f : FitsFile α) (colour : Bool) : Arr2 α :=
  let vals := displayStage sq f colour
  if 255 < maxVal vals then
    Arr2.map (fun x => x / maxVal vals * 255) vals
  else vals

/-- The cast `.astype(np.uint8)` applied elementwise: C truncation of
a nonnegative float is its floor, reduced mod 2^8.  All arrays cast in
the code hold nonnegative values, where truncation and floor agree. -/
def toUint8 {α : Type} [LinearOrderedField α] [FloorRing α] (a : Arr2 α) :
    Arr2 Int :=
  ⟨a.rows, a.cols, fun i j => ⌊a.data i j⌋ % 256⟩

/-- The in-memory raster handed to the imaging library: an ordered list
of 8-bit channel planes.  Resizing (`img.thumbnail`) and the JPEG
encoding (`img.save`) are the imaging library's work and are not
modelled; an `Option.none` earlier in the pipeline means the Python
call raised before any file was written. -/
structure PILImage where
  channels : List (Arr2 Int)

/-- Model of `stack_images`: `np.dstack` requires every frame to have
the same 2D shape (it raises otherwise, modelled by `none`, and also
raises on an empty list), then the stack is cast to uint8 and handed
to `Image.fromarray`. -/
def stackImages {α : Type} [LinearOrderedField α] [FloorRing α]
    (imagesToStack : List (Arr2 α)) : Option PILImage :=
  match imagesToStack with
  | [] => none
  | a :: rest =>
    if rest.all (fun b => b.rows == a.rows && b.cols == a.cols) then
      some ⟨(a :: rest).map toUint8⟩
    else none

/-- The zoom decision of planet_image_to_jpg:

    if params['height'] <= 600 and params['width'] <= 600:
        zoom = True
    else:
        zoom = False
-/
def zoomFlag (height width : Int) : Bool :=
  if height ≤ 600 ∧ width ≤ 600 then true else false

/-- Model of planet_image_to_jpg.  The `len(filenames) >= 3` branch
scales every listed file with colour=True, optionally crops each with
find_planet, and stacks them; the `len(filenames) == 1` branch scales
the single file with colour=False, optionally crops, and produces a
single-channel image.  Any other count leaves the local `img`
unassigned, so the call raises (UnboundLocalError) before the resize
and save steps: modelled by `none`.  The final resize to
`(height, width)` and the JPEG write are the imaging library's work
and not modelled; the discarded `img.convert('RGB')` result has no
effect. -/
def planetImageToJpg {α : Type} [LinearOrderedField α] [FloorRing α]
    (sq : α → α) (filenames : List (FitsFile α)) (height width : Int) :
    Option PILImage :=
  let zoom := zoomFlag height width
  if 3 ≤ filenames.length then
    (filenames.mapM (fun f =>
      if zoom then findPlanet (planetImageDataWith sq f true)
      else some (planetImageDataWith sq f true))).bind stackImages
  else if filenames.length = 1 then
    (filenames.head?.bind (fun f =>
      if zoom then findPlanet (planetImageDataWith sq f false)
      else some (planetImageDataWith sq f false))).map
        (fun d => PILImage.mk [toUint8 d])
  else none

section ArgmaxMaxLemmas

variable {α : Type} [LinearOrder α] (f : Nat → α)

lemma argmaxLin_lt {n : Nat} (hn : 0 < n) : argmaxLin f n < n := by
  induction n with
  | zero => exact absurd hn (by omega)
  | succ n ih =>
    rw [argmaxLin]
    by_cases h : f (argmaxLin f n) < f n
    · simp [h]
    · rcases Nat.eq_zero_or_pos n with h0 | h0
      · subst h0; simp [argmaxLin]
      · simp only [h, if_false]
        exact Nat.lt_succ_of_lt (ih h0)

lemma le_argmaxLin {n k : Nat} (hk : k < n) : f k ≤ f (argmaxLin f n) := by
  induction n with
  | zero => exact absurd hk (by omega)
  | succ n ih =>
    rw [argmaxLin]
    by_cases h : f (argmaxLin f n) < f n
    · simp only [h, if_true]
      rcases Nat.lt_succ_iff_lt_or_eq.mp hk with hk' | hk'
      · exact le_of_lt (lt_of_le_of_lt (ih hk') h)
      · exact le_of_eq (by rw [hk'])
    · simp only [h, if_false]
      rcases Nat.lt_succ_iff_lt_or_eq.mp hk with hk' | hk'
      · exact ih hk'
      · rw [hk']; exact not_lt.mp h

lemma argmaxLin_first {n k : Nat} (hk : k < argmaxLin f n) :
    f k < f (argmaxLin f n) := by
  induction n with
  | zero => simp [argmaxLin] at hk
  | succ n ih =>
    rw [argmaxLin] at hk ⊢
    by_cases h : f (argmaxLin f n) < f n
    · simp only [h, if_true] at hk ⊢
      exact lt_of_le_of_lt (le_argmaxLin f hk) h
    · simp only [h, if_false] at hk ⊢
      exact ih hk

lemma argmaxLin_eq {n l0 : Nat} (hn : 0 < n) (hl0 : l0 < n)
    (hub : ∀ k, k < n → f k ≤ f l0) (hfirst : ∀ k, k < l0 → f k < f l0) :
    argmaxLin f n = l0 := by
  rcases lt_trichotomy (argmaxLin f n) l0 with h | h | h
  · exact absurd (hfirst _ h) (not_lt.mpr (le_argmaxLin f hl0))
  · exact h
  · exact absurd (argmaxLin_first f h) (not_lt.mpr (hub _ (argmaxLin_lt f hn)))

lemma le_maxLin {n k : Nat} (hk : k < n) : f k ≤ maxLin f n := by
  induction n with
  | zero => exact absurd hk (by omega)
  | succ n ih =>
    rw [maxLin]
    rcases Nat.lt_succ_iff_lt_or_eq.mp hk with hk' | hk'
    · exact le_trans (ih hk') (le_max_left _ _)
    · rw [hk']; exact le_max_right _ _

lemma maxLin_mem {n : Nat} (hn : 0 < n) : ∃ k, k < n ∧ maxLin f n = f k := by
  induction n with
  | zero => exact absurd hn (by omega)
  | succ n ih =>
    rcases Nat.eq_zero_or_pos n with h0 | h0
    · subst h0; exact ⟨0, by omega, by rw [maxLin, maxLin, max_self]⟩
    · obtain ⟨k, hk, hmax⟩ := ih h0
      rw [maxLin]
      rcases max_cases (maxLin f n) (f n) with ⟨heq, _⟩ | ⟨heq, _⟩
      · exact ⟨k, by omega, by rw [heq, hmax]⟩
      · exact ⟨n, by omega, heq⟩

lemma maxLin_eq {n : Nat} (M : α) (hn : 0 < n)
    (hub : ∀ k, k < n → f k ≤ M) (hmem : ∃ k, k < n ∧ f k = M) :
    maxLin f n = M := by
  obtain ⟨k0, hk0, hfk0⟩ := hmem
  apply le_antisymm
  · obtain ⟨k, hk, hmax⟩ := maxLin_mem f hn
    rw [hmax]; exact hub k hk
  · rw [← hfk0]; exact le_maxLin f hk0

end ArgmaxMaxLemmas

/-- For a dimension of size at least 3 other than 4, 5 and 8, the block
extent `m // (m // 3)` computed by rebin equals the binning factor 3. -/
lemma div_of_div_three {m : Nat} (h3 : 3 ≤ m) (h4 : m ≠ 4) (h5 : m ≠ 5)
    (h8 : m ≠ 8) : m / (m / 3) = 3 := by
  rcases le_or_lt m 8 with h | h
  · interval_cases m <;> omega
  · have hqpos : 0 < m / 3 := by omega
    have ha : 3 ≤ m / (m / 3) := (Nat.le_div_iff_mul_le hqpos).mpr (by omega)
    have hb : m / (m / 3) < 4 := (Nat.div_lt_iff_lt_mul hqpos).mpr (by omega)
    omega

/-- Characterization of rebin with binning 3 on the dimensions where the
internal reshape is consistent: the reshape succeeds and each entry of
the reduced array is the mean of the corresponding 3x3 block of the
truncated input. -/
lemma rebin3_spec {α : Type} [LinearOrderedField α] (arr : Arr2 α)
    (h3r : 3 ≤ arr.rows) (h4r : arr.rows ≠ 4) (h5r : arr.rows ≠ 5)
    (h8r : arr.rows ≠ 8)
    (h3c : 3 ≤ arr.cols) (h4c : arr.cols ≠ 4) (h5c : arr.cols ≠ 5)
    (h8c : arr.cols ≠ 8) :
    ∃ r, rebin arr 3 = some r ∧ r.rows = arr.rows / 3 ∧
      r.cols = arr.cols / 3 ∧
      ∀ i j, i < arr.rows / 3 → j < arr.cols / 3 →
        r.data i j =
          (∑ u ∈ Finset.range 3, ∑ v ∈ Finset.range 3,
            arr.data (3 * i + u) (3 * j + v)) / 9 := by
  have hb1 : arr.rows / (arr.rows / 3) = 3 := div_of_div_three h3r h4r h5r h8r
  have hb2 : arr.cols / (arr.cols / 3) = 3 := div_of_div_three h3c h4c h5c h8c
  have hxlim : arr.rows - arr.rows % 3 = 3 * (arr.rows / 3) := by omega
  have hylim : arr.cols - arr.cols % 3 = 3 * (arr.cols / 3) := by omega
  simp only [rebin]
  rw [if_neg (by omega), hb1, hb2, hxlim, hylim, if_pos (by ring)]
  refine ⟨_, rfl, rfl, rfl, ?_⟩
  intro i j hi hj
  simp only
  have hstep : ∀ u v, u < 3 → v < 3 →
      arr.data ((((i * 3 + u) * (arr.cols / 3) + j) * 3 + v) /
          (3 * (arr.cols / 3)))
        ((((i * 3 + u) * (arr.cols / 3) + j) * 3 + v) %
          (3 * (arr.cols / 3))) = arr.data (3 * i + u) (3 * j + v) := by
    intro u v hu hv
    have hN : ((i * 3 + u) * (arr.cols / 3) + j) * 3 + v =
        3 * (arr.cols / 3) * (3 * i + u) + (3 * j + v) := by ring
    have hlt : 3 * j + v < 3 * (arr.cols / 3) := by omega
    have hpos : 0 < 3 * (arr.cols / 3) := by omega
    rw [hN, Nat.mul_add_div hpos, Nat.div_eq_of_lt hlt, Nat.add_zero,
      Nat.mul_add_mod, Nat.mod_eq_of_lt hlt]
  calc (∑ u ∈ Finset.range 3,
          (∑ v ∈ Finset.range 3,
            arr.data ((((i * 3 + u) * (arr.cols / 3) + j) * 3 + v) /
                (3 * (arr.cols / 3)))
              ((((i * 3 + u) * (arr.cols / 3) + j) * 3 + v) %
                (3 * (arr.cols / 3)))) / ((3 : Nat) : α)) / ((3 : Nat) : α)
      = (∑ u ∈ Finset.range 3,
          (∑ v ∈ Finset.range 3,
            arr.data (3 * i + u) (3 * j + v)) / ((3 : Nat) : α)) /
            ((3 : Nat) : α) := by
        congr 1
        refine Finset.sum_congr rfl ?_
        intro u hu
        congr 1
        refine Finset.sum_congr rfl ?_
        intro v hv
        exact hstep u v (Finset.mem_range.mp hu) (Finset.mem_range.mp hv)
    _ = (∑ u ∈ Finset.range 3, ∑ v ∈ Finset.range 3,
          arr.data (3 * i + u) (3 * j + v)) / 9 := by
        rw [← Finset.sum_div, div_div]
        norm_num

/-- Claim C1 (amended): for a 2D array both of whose dimensions are at
least 3 and none of which is 4, 5 or 8, rebin(arr, 3) truncates each
dimension down to a multiple of 3 and returns the reduced-resolution
array whose entry (i, j) is the arithmetic mean of the 3x3 block of the
truncated array at block position (i, j).  (For a dimension of 4, 5
or 8 the reshape inside rebin has a mismatched element count and the
call raises instead; see the counterexample.) -/
theorem rebin3_truncated_block_mean {α : Type} [LinearOrderedField α]
    (arr : Arr2 α)
    (h3r : 3 ≤ arr.rows) (h4r : arr.rows ≠ 4) (h5r : arr.rows ≠ 5)
    (h8r : arr.rows ≠ 8)
    (h3c : 3 ≤ arr.cols) (h4c : arr.cols ≠ 4) (h5c : arr.cols ≠ 5)
    (h8c : arr.cols ≠ 8) :
    ∃ r, rebin arr 3 = some r ∧ r.rows = arr.rows / 3 ∧
      r.cols = arr.cols / 3 ∧
      ∀ i j, i < arr.rows / 3 → j < arr.cols / 3 →
        r.data i j =
          (∑ u ∈ Finset.range 3, ∑ v ∈ Finset.range 3,
            arr.data (3 * i + u) (3 * j + v)) / 9 :=
  rebin3_spec arr h3r h4r h5r h8r h3c h4c h5c h8c

/-- A concrete 3x3 array whose nine entries are 0..8, used to witness
claim C1. -/
def arr33 : Arr2 ℚ := ⟨3, 3, fun i j => ((i * 3 + j : Nat) : ℚ)⟩

/-- Witness for claim C1: on the 3x3 array with entries 0..8 the rebin
call succeeds, produces a 1x1 array, and its single entry is the mean
4 of the block. -/
theorem rebin3_truncated_block_mean_witness :
    Option.map Arr2.rows (rebin arr33 3) = some 1 ∧
    Option.map Arr2.cols (rebin arr33 3) = some 1 ∧
    Option.map (fun r => r.data 0 0) (rebin arr33 3) = some 4 := by
  obtain ⟨r, hr, hrows, hcols, hdata⟩ :=
    rebin3_truncated_block_mean arr33 (by decide) (by decide) (by decide)
      (by decide) (by decide) (by decide) (by decide) (by decide)
  have h00 := hdata 0 0 (by decide) (by decide)
  refine ⟨?_, ?_, ?_⟩
  · rw [hr, Option.map_some', hrows]; rfl
  · rw [hr, Option.map_some', hcols]; rfl
  · rw [hr, Option.map_some', h00]
    norm_num [arr33, Finset.sum_range_succ]

/-- Counterexample to claim C1 as stated: a 4x3 array has both
dimensions at least 3, yet rebin(arr, 3) does not return the block-mean
array; the internal reshape of the 3x3 truncated view to the target
shape (1, 4, 1, 3) has mismatched element counts (9 versus 12), so
numpy raises a ValueError (modelled by `none`). -/
theorem rebin3_counterexample :
    rebin (⟨4, 3, fun _ _ => (0 : ℚ)⟩ : Arr2 ℚ) 3 = none ∧
    (none : Option (Arr2 ℚ)) ≠ some ⟨1, 1, fun _ _ => 0⟩ := by
  constructor
  · rfl
  · intro h
    exact Option.noConfusion h

/-- Python slice-bound normalization is the identity on an in-range
nonnegative index. -/
lemma sliceBound_nonneg {n : Nat} {i : Int} (h0 : 0 ≤ i)
    (hn : i ≤ (n : Int)) : sliceBound n i = i.toNat := by
  simp only [sliceBound]
  have hi : ¬ i < 0 := by omega
  simp only [hi, if_false]
  exact min_eq_left (by omega)

/-- Claim C2 (amended): for every 2D frame on which rebin succeeds and
whose brightness peak — the position (mx, my) of the maximum of the
rebinned array, first occurrence in row-major order on ties, mapped
back to full resolution by multiplying each coordinate by 3 — lies at
least 300 pixels inside every frame edge, find_planet returns exactly
the 600x600 window of the original frame extending 300 pixels in each
direction from that peak.  (When the peak is within 300 pixels of an
edge the Python slice silently clamps or wraps and a smaller window is
returned instead; see the counterexample.) -/
theorem findPlanet_crop_spec {α : Type} [LinearOrderedField α]
    (data : Arr2 α) (mx my : Nat)
    (hx1 : 300 ≤ 3 * mx) (hx2 : 3 * mx + 300 ≤ data.rows)
    (hy1 : 300 ≤ 3 * my) (hy2 : 3 * my + 300 ≤ data.cols)
    (hsome : rebin data 3 ≠ none)
    (hpk : ∀ r, rebin data 3 = some r →
      mx < r.rows ∧ my < r.cols ∧
      (∀ i j, i < r.rows → j < r.cols → r.data i j ≤ r.data mx my) ∧
      (∀ i j, i < r.rows → j < r.cols →
        i * r.cols + j < mx * r.cols + my → r.data i j < r.data mx my)) :
    ∃ crop, findPlanet data = some crop ∧ crop.rows = 600 ∧
      crop.cols = 600 ∧
      ∀ a b, crop.data a b =
        data.data (3 * mx - 300 + a) (3 * my - 300 + b) := by
  obtain ⟨r, hr⟩ := Option.ne_none_iff_exists'.mp hsome
  obtain ⟨hmx, hmy, hub, hfirst⟩ := hpk r hr
  have hcpos : 0 < r.cols := by omega
  have hrpos : 0 < r.rows := by omega
  have hdiv : (mx * r.cols + my) / r.cols = mx := by
    have h : mx * r.cols + my = r.cols * mx + my := by ring
    rw [h, Nat.mul_add_div hcpos, Nat.div_eq_of_lt hmy, Nat.add_zero]
  have hmod : (mx * r.cols + my) % r.cols = my := by
    have h : mx * r.cols + my = r.cols * mx + my := by ring
    rw [h, Nat.mul_add_mod, Nat.mod_eq_of_lt hmy]
  have hflat_l0 : r.flat (mx * r.cols + my) = r.data mx my := by
    simp [Arr2.flat, hdiv, hmod]
  have hlin : argmaxLin r.flat (r.rows * r.cols) = mx * r.cols + my := by
    apply argmaxLin_eq
    · exact Nat.mul_pos hrpos hcpos
    · calc mx * r.cols + my < mx * r.cols + r.cols := by omega
        _ = (mx + 1) * r.cols := by ring
        _ ≤ r.rows * r.cols := Nat.mul_le_mul_right _ (by omega)
    · intro k hk
      rw [hflat_l0]
      exact hub _ _ ((Nat.div_lt_iff_lt_mul hcpos).mpr hk)
        (Nat.mod_lt _ hcpos)
    · intro k hk
      rw [hflat_l0]
      have hkn : k < r.rows * r.cols := by
        calc k < mx * r.cols + my := hk
          _ < mx * r.cols + r.cols := by omega
          _ = (mx + 1) * r.cols := by ring
          _ ≤ r.rows * r.cols := Nat.mul_le_mul_right _ (by omega)
      have hksplit : k / r.cols * r.cols + k % r.cols = k := by
        rw [mul_comm]; exact Nat.div_add_mod k r.cols
      exact hfirst _ _ ((Nat.div_lt_iff_lt_mul hcpos).mpr hkn)
        (Nat.mod_lt _ hcpos) (by omega)
  have hs1 : sliceBound data.rows (3 * (mx : Int) - 300) = 3 * mx - 300 := by
    rw [sliceBound_nonneg (by omega) (by omega)]
    omega
  have hs2 : sliceBound data.rows (3 * (mx : Int) + 300) = 3 * mx + 300 := by
    rw [sliceBound_nonneg (by omega) (by omega)]
    omega
  have hs3 : sliceBound data.cols (3 * (my : Int) - 300) = 3 * my - 300 := by
    rw [sliceBound_nonneg (by omega) (by omega)]
    omega
  have hs4 : sliceBound data.cols (3 * (my : Int) + 300) = 3 * my + 300 := by
    rw [sliceBound_nonneg (by omega) (by omega)]
    omega
  simp only [findPlanet, hr]
  rw [hlin, hdiv, hmod]
  simp only [pySlice2, hs1, hs2, hs3, hs4]
  refine ⟨_, rfl, ?_, ?_, fun a b => rfl⟩
  · show 3 * mx + 300 - (3 * mx - 300) = 600
    omega
  · show 3 * my + 300 - (3 * my - 300) = 600
    omega

/-- A 3x3 frame with a single bright pixel, accepted by find_planet
(no exception is raised on it). -/
def tiny3 : Arr2 ℚ := ⟨3, 3, fun i j => if i = 0 ∧ j = 0 then 5 else 0⟩

/-- Counterexample to claim C2 as stated: on a 3x3 frame find_planet
runs without error, but the peak maps to (0, 0) and the slice
data[-300:300, -300:300] clamps to the whole 3x3 frame, so the
returned crop is 3x3, not the promised 600x600 window. -/
theorem findPlanet_crop_counterexample :
    Option.map Arr2.rows (findPlanet tiny3) = some 3 ∧
    Option.map Arr2.rows (findPlanet tiny3) ≠ some 600 := by
  obtain ⟨r, hr, hrows, hcols, _⟩ :=
    rebin3_spec tiny3 (by decide) (by decide) (by decide) (by decide)
      (by decide) (by decide) (by decide) (by decide)
  have h1r : r.rows = 1 := by rw [hrows]; rfl
  have h1c : r.cols = 1 := by rw [hcols]; rfl
  have hlin : argmaxLin r.flat (r.rows * r.cols) = 0 := by
    rw [h1r, h1c]
    show argmaxLin r.flat (0 + 1) = 0
    rw [argmaxLin]
    simp [argmaxLin]
  have hmain : Option.map Arr2.rows (findPlanet tiny3) = some 3 := by
    simp only [findPlanet, hr]
    rw [hlin]
    norm_num [pySlice2, sliceBound, tiny3]
  exact ⟨hmain, by rw [hmain]; intro h; exact absurd (Option.some.inj h) (by decide)⟩

/-- A 900x900 frame that is zero except for a single bright pixel of
value 1000 at (450, 450): the synthetic frame of claim C2. -/
def frame900 : Arr2 ℚ := ⟨900, 900, fun i j => if i = 450 ∧ j = 450 then 1000 else 0⟩

/-- The rebinned frame900 is a 300x300 array that is zero except for
the value 1000/9 at block (150, 150). -/
lemma frame900_rebin : ∀ r, rebin frame900 3 = some r →
    r.rows = 300 ∧ r.cols = 300 ∧
    ∀ i j, i < 300 → j < 300 →
      r.data i j = if i = 150 ∧ j = 150 then 1000 / 9 else 0 := by
  obtain ⟨r0, hr0, hrows0, hcols0, hdata0⟩ :=
    rebin3_spec frame900 (by decide) (by decide) (by decide) (by decide)
      (by decide) (by decide) (by decide) (by decide)
  intro r hr
  have hrr : r0 = r := by rw [hr0] at hr; exact Option.some.inj hr
  subst hrr
  refine ⟨by rw [hrows0]; rfl, by rw [hcols0]; rfl, ?_⟩
  intro i j hi hj
  rw [hdata0 i j (by exact hi) (by exact hj)]
  by_cases hij : i = 150 ∧ j = 150
  · obtain ⟨hi150, hj150⟩ := hij
    subst hi150; subst hj150
    rw [if_pos ⟨rfl, rfl⟩]
    norm_num [frame900, Finset.sum_range_succ]
  · rw [if_neg hij]
    have hz : ∀ u ∈ Finset.range 3,
        (∑ v ∈ Finset.range 3, frame900.data (3 * i + u) (3 * j + v)) = 0 := by
      intro u hu
      apply Finset.sum_eq_zero
      intro v hv
      have hu3 : u < 3 := Finset.mem_range.mp hu
      have hv3 : v < 3 := Finset.mem_range.mp hv
      simp only [frame900]
      rw [if_neg]
      rintro ⟨h1, h2⟩
      exact hij ⟨by omega, by omega⟩
    rw [Finset.sum_congr rfl hz, Finset.sum_const, smul_zero, zero_div]

/-- Witness for claim C2 on the synthetic frame of the claim: the
rebinned maximum of frame900 is at block (150, 150), which maps back to
pixel (450, 450), and the returned crop is the 600x600 window around
it: its centre entry (300, 300) is the bright pixel data[450, 450]. -/
theorem findPlanet_crop_spec_witness :
    Option.map Arr2.rows (findPlanet frame900) = some 600 ∧
    Option.map Arr2.cols (findPlanet frame900) = some 600 ∧
    Option.map (fun c => c.data 300 300) (findPlanet frame900) = some 1000 := by
  have hsome : rebin frame900 3 ≠ none := by
    obtain ⟨r0, hr0, _⟩ :=
      rebin3_spec frame900 (by decide) (by decide) (by decide) (by decide)
        (by decide) (by decide) (by decide) (by decide)
    rw [hr0]
    exact fun h => Option.noConfusion h
  have hpk : ∀ r, rebin frame900 3 = some r →
      150 < r.rows ∧ 150 < r.cols ∧
      (∀ i j, i < r.rows → j < r.cols → r.data i j ≤ r.data 150 150) ∧
      (∀ i j, i < r.rows → j < r.cols →
        i * r.cols + j < 150 * r.cols + 150 → r.data i j < r.data 150 150) := by
    intro r hr
    obtain ⟨h300r, h300c, hdata⟩ := frame900_rebin r hr
    have h150 : r.data 150 150 = 1000 / 9 := by
      rw [hdata 150 150 (by omega) (by omega), if_pos ⟨rfl, rfl⟩]
    refine ⟨by omega, by omega, ?_, ?_⟩
    · intro i j hi hj
      rw [hdata i j (by omega) (by omega), h150]
      split_ifs with h
      · exact le_refl _
      · norm_num
    · intro i j hi hj hlt
      rw [hdata i j (by omega) (by omega), h150]
      have hne : ¬(i = 150 ∧ j = 150) := by
        rintro ⟨rfl, rfl⟩
        omega
      rw [if_neg hne]
      norm_num
  obtain ⟨crop, hc, hrows, hcols, hdata⟩ :=
    findPlanet_crop_spec frame900 150 150 (by norm_num) (by decide)
      (by norm_num) (by decide) hsome hpk
  refine ⟨?_, ?_, ?_⟩
  · rw [hc, Option.map_some', hrows]
  · rw [hc, Option.map_some', hcols]
  · rw [hc, Option.map_some', hdata 300 300]
    norm_num [frame900]

/-- Claim C3: in planet_image_data the gain n starts at 1.0 and becomes
1.1 exactly when colour is true and the lowercased FILTER equals
h-alpha or the exact-case FILTER equals V; the target multiplier by
lowercased object name is 5.0 for saturn and mars, 1.4 for jupiter,
0.5 for uranus — where n is reset to 1.0 unless the exact-case FILTER
is B, in which case n = 1.5 — and 1.0 otherwise; in particular
object JUPITER, filter R, colour false gives planet 1.4 and n 1.0, and
object uranus, filter B, colour true gives planet 0.5 and n 1.5. -/
theorem planetParams_spec (obj fil : String) (colour : Bool) :
    ((planetParams obj fil colour).1 =
      if pyLower obj = "saturn" ∨ pyLower obj = "mars" then 5
      else if pyLower obj = "jupiter" then 14/10
      else if pyLower obj = "uranus" then 1/2
      else 1) ∧
    (pyLower obj ≠ "uranus" →
      (planetParams obj fil colour).2 =
        if colour = true ∧ (pyLower fil = "h-alpha" ∨ fil = "V") then 11/10
        else 1) ∧
    (pyLower obj = "uranus" →
      (planetParams obj fil colour).2 = if fil = "B" then 3/2 else 1) ∧
    planetParams "JUPITER" "R" false = (14/10, 1) ∧
    planetParams "uranus" "B" true = (1/2, 3/2) := by
  have hjup : pyLower "JUPITER" = "jupiter" := by decide
  have hur : pyLower "uranus" = "uranus" := by decide
  have hR : pyLower "R" = "r" := by decide
  refine ⟨?_, ?_, ?_, by simp [planetParams, hjup, hR], by simp [planetParams, hur]⟩
  · simp only [planetParams]
    split_ifs <;> simp_all
  · intro h
    simp only [planetParams]
    split_ifs <;> simp_all
  · intro h
    simp only [planetParams]
    split_ifs <;> simp_all

/-- Witness for claim C3, instantiating both implications: for object
MARS the gain keeps its colour value, and for object Uranus with a
non-B filter the gain is reset to 1. -/
theorem planetParams_spec_witness :
    (planetParams "MARS" "h-alpha" true).2 = 11/10 ∧
    (planetParams "Uranus" "V" true).2 = 1 := by
  constructor
  · have h := (planetParams_spec "MARS" "h-alpha" true).2.1 (by decide)
    rw [h]
    simp [show pyLower "h-alpha" = "h-alpha" from by decide]
  · have h := (planetParams_spec "Uranus" "V" true).2.2.1 (by decide)
    rw [h]
    simp

/-- Claim C4: the background suppression zeroes every raw value
strictly below 200, leaves values at or above 200 unchanged, is
idempotent, and is applied to the raw frame before the power-law
scaling (the display stage scales the suppressed frame). -/
theorem applyCutoff_spec {α : Type} [LinearOrderedField α] (a : Arr2 α)
    (i j : Nat) (sq : α → α) (f : FitsFile α) (colour : Bool) :
    (a.data i j < 200 → (applyCutoff a).data i j = 0) ∧
    (200 ≤ a.data i j → (applyCutoff a).data i j = a.data i j) ∧
    applyCutoff (applyCutoff a) = applyCutoff a ∧
    displayStage sq f colour =
      Arr2.map (fun x => ((planetParams f.OBJECT f.FILTER colour).1 : α) *
        ((planetParams f.OBJECT f.FILTER colour).2 : α) * sq x)
        (applyCutoff f.data) := by
  refine ⟨?_, ?_, ?_, rfl⟩
  · intro h
    simp [applyCutoff, h]
  · intro h
    simp [applyCutoff, not_lt.mpr h]
  · simp only [applyCutoff]
    congr 1
    funext x y
    by_cases h : a.data x y < 200
    · simp [h]
    · simp [h]

/-- A concrete 1x2 frame with one value below and one above the
cutoff, used to witness claim C4. -/
def cutFrame : Arr2 ℚ := ⟨1, 2, fun _ j => if j = 0 then 5 else 300⟩

/-- Witness for claim C4 at the concrete frame: the sub-cutoff entry
becomes 0, the above-cutoff entry is unchanged, and a second
application changes nothing. -/
theorem applyCutoff_spec_witness :
    (applyCutoff cutFrame).data 0 0 = 0 ∧
    (applyCutoff cutFrame).data 0 1 = cutFrame.data 0 1 ∧
    applyCutoff (applyCutoff cutFrame) = applyCutoff cutFrame := by
  refine ⟨?_, ?_, ?_⟩
  · exact (applyCutoff_spec cutFrame 0 0 id ⟨cutFrame, "", ""⟩ false).1
      (by norm_num [cutFrame])
  · exact (applyCutoff_spec cutFrame 0 1 id ⟨cutFrame, "", ""⟩ false).2.1
      (by norm_num [cutFrame])
  · exact (applyCutoff_spec cutFrame 0 0 id ⟨cutFrame, "", ""⟩ false).2.2.1

/-- The maximum of a 1x1 array is its single entry. -/
lemma maxVal_one {α : Type} [LinearOrder α] (a : Arr2 α) (h1 : a.rows = 1)
    (h2 : a.cols = 1) : maxVal a = a.data 0 0 := by
  unfold maxVal
  rw [h1, h2]
  show maxLin a.flat (0 + 1) = a.data 0 0
  rw [maxLin]
  simp [maxLin, Arr2.flat]

/-- Claim C5: writing display for the scaled array
planet * n * sqrt(raw), the normalization step of planet_image_data
rescales the whole array linearly as display / max * 255 exactly when
the maximum of display exceeds 255, and the resulting maximum is then
exactly 255; when the maximum is at most 255 the array is returned
unchanged.  (Stated for nonempty frames; np.max raises on an empty
array.) -/
theorem planetImageData_normalization {α : Type} [LinearOrderedField α]
    (sq : α → α) (f : FitsFile α) (colour : Bool)
    (hr : 0 < f.data.rows) (hc : 0 < f.data.cols) :
    (255 < maxVal (displayStage sq f colour) →
      planetImageDataWith sq f colour =
        Arr2.map (fun x => x / maxVal (displayStage sq f colour) * 255)
          (displayStage sq f colour) ∧
      maxVal (planetImageDataWith sq f colour) = 255) ∧
    (maxVal (displayStage sq f colour) ≤ 255 →
      planetImageDataWith sq f colour = displayStage sq f colour) := by
  constructor
  · intro hmax
    have heq : planetImageDataWith sq f colour =
        Arr2.map (fun x => x / maxVal (displayStage sq f colour) * 255)
          (displayStage sq f colour) := by
      simp only [planetImageDataWith]
      rw [if_pos hmax]
    refine ⟨heq, ?_⟩
    rw [heq]
    have hMpos : (0 : α) < maxVal (displayStage sq f colour) :=
      lt_trans (by norm_num) hmax
    have hn : 0 < (displayStage sq f colour).rows *
        (displayStage sq f colour).cols := Nat.mul_pos hr hc
    show maxLin
      (fun l => (displayStage sq f colour).flat l /
        maxVal (displayStage sq f colour) * 255)
      ((displayStage sq f colour).rows * (displayStage sq f colour).cols)
      = 255
    apply maxLin_eq _ _ hn
    · intro k hk
      have h1 : (displayStage sq f colour).flat k ≤
          maxVal (displayStage sq f colour) := le_maxLin _ hk
      calc (displayStage sq f colour).flat k /
            maxVal (displayStage sq f colour) * 255
          ≤ maxVal (displayStage sq f colour) /
            maxVal (displayStage sq f colour) * 255 :=
            mul_le_mul_of_nonneg_right ((div_le_div_iff_of_pos_right hMpos).mpr h1)
              (by norm_num)
        _ = 255 := by rw [div_self (ne_of_gt hMpos), one_mul]
    · obtain ⟨k, hk, hmx⟩ := maxLin_mem (displayStage sq f colour).flat hn
      refine ⟨k, hk, ?_⟩
      have h2 : maxVal (displayStage sq f colour) =
          (displayStage sq f colour).flat k := hmx
      rw [h2, div_self, one_mul]
      rw [← h2]
      exact ne_of_gt hMpos
  · intro hle
    simp only [planetImageDataWith]
    rw [if_neg (not_lt.mpr hle)]

/-- A 1x1 FITS frame holding the value 90000, whose square root 300
exceeds the 255 threshold after scaling with planet = n = 1. -/
def fileHi : FitsFile ℝ := ⟨⟨1, 1, fun _ _ => 90000⟩, "w", "none"⟩

/-- A 1x1 FITS frame holding the value 40000, whose square root 200
stays at or below the 255 threshold after scaling with planet = n = 1. -/
def fileLo : FitsFile ℝ := ⟨⟨1, 1, fun _ _ => 40000⟩, "w", "none"⟩

/-- The multipliers for the header values of fileHi and fileLo are
both 1. -/
lemma planetParams_none_w : planetParams "none" "w" false = (1, 1) := by
  decide

/-- The scaled 1x1 display entry for a raw value v at or above the
cutoff and multipliers 1 is the square root of v. -/
lemma displayStage_entry (v : ℝ) (hv : 200 ≤ v) :
    (displayStage Real.sqrt ⟨⟨1, 1, fun _ _ => v⟩, "w", "none"⟩ false).data 0 0
      = Real.sqrt v := by
  simp only [displayStage, Arr2.map, applyCutoff, planetParams_none_w]
  rw [if_neg (not_lt.mpr hv)]
  push_cast
  ring

/-- Witness for claim C5: for the 1x1 frame with value 90000 the
display maximum is 300 > 255 and the normalized maximum is exactly
255; for the 1x1 frame with value 40000 the display maximum is
200 <= 255 and the array is returned unchanged. -/
theorem planetImageData_normalization_witness :
    maxVal (planetImageDataWith Real.sqrt fileHi false) = 255 ∧
    planetImageDataWith Real.sqrt fileLo false =
      displayStage Real.sqrt fileLo false := by
  have hHi : maxVal (displayStage Real.sqrt fileHi false) = 300 := by
    rw [maxVal_one _ rfl rfl]
    show (displayStage Real.sqrt
      ⟨⟨1, 1, fun _ _ => (90000 : ℝ)⟩, "w", "none"⟩ false).data 0 0 = 300
    rw [displayStage_entry 90000 (by norm_num)]
    rw [show (90000 : ℝ) = 300 ^ 2 by norm_num,
      Real.sqrt_sq (by norm_num : (0 : ℝ) ≤ 300)]
  have hLo : maxVal (displayStage Real.sqrt fileLo false) = 200 := by
    rw [maxVal_one _ rfl rfl]
    show (displayStage Real.sqrt
      ⟨⟨1, 1, fun _ _ => (40000 : ℝ)⟩, "w", "none"⟩ false).data 0 0 = 200
    rw [displayStage_entry 40000 (by norm_num)]
    rw [show (40000 : ℝ) = 200 ^ 2 by norm_num,
      Real.sqrt_sq (by norm_num : (0 : ℝ) ≤ 200)]
  constructor
  · exact ((planetImageData_normalization Real.sqrt fileHi false
      Nat.one_pos Nat.one_pos).1 (by rw [hHi]; norm_num)).2
  · exact (planetImageData_normalization Real.sqrt fileLo false
      Nat.one_pos Nat.one_pos).2 (by rw [hLo]; norm_num)

/-- Claim C6: in planet_image_to_jpg, zoom mode — cropping around the
detected planet — is enabled exactly when both the requested height
and the requested width are at most 600: with zoom the single-file
branch crops through find_planet, without it the scaled frame is used
as is. -/
theorem zoomFlag_iff_600 {α : Type} [LinearOrderedField α] [FloorRing α]
    (sq : α → α) (f : FitsFile α) (h w : Int) :
    (zoomFlag h w = true ↔ h ≤ 600 ∧ w ≤ 600) ∧
    (h ≤ 600 ∧ w ≤ 600 →
      planetImageToJpg sq [f] h w =
        (findPlanet (planetImageDataWith sq f false)).map
          (fun d => PILImage.mk [toUint8 d])) ∧
    (¬(h ≤ 600 ∧ w ≤ 600) →
      planetImageToJpg sq [f] h w =
        some (PILImage.mk [toUint8 (planetImageDataWith sq f false)])) := by
  have hziff : zoomFlag h w = true ↔ h ≤ 600 ∧ w ≤ 600 := by
    simp [zoomFlag]
  refine ⟨hziff, ?_, ?_⟩
  · intro hz
    have hzt : zoomFlag h w = true := hziff.mpr hz
    simp [planetImageToJpg, hzt, Option.bind]
  · intro hnz
    have hzf : zoomFlag h w = false := by
      simp [zoomFlag, hnz]
    simp [planetImageToJpg, hzf, Option.bind]

/-- A trivial 1x1 rational frame used to witness claim C6. -/
def flatFileQ : FitsFile ℚ := ⟨⟨1, 1, fun _ _ => 0⟩, "w", "none"⟩

/-- Witness for claim C6: at 600x600 the zoom flag is set and the
single-file output goes through find_planet; at 601x700 it is not and
the scaled frame is used directly. -/
theorem zoomFlag_iff_600_witness :
    zoomFlag 600 600 = true ∧
    planetImageToJpg (id : ℚ → ℚ) [flatFileQ] 600 600 =
      (findPlanet (planetImageDataWith id flatFileQ false)).map
        (fun d => PILImage.mk [toUint8 d]) ∧
    planetImageToJpg (id : ℚ → ℚ) [flatFileQ] 601 700 =
      some (PILImage.mk [toUint8 (planetImageDataWith id flatFileQ false)]) := by
  refine ⟨?_, ?_, ?_⟩
  · exact (zoomFlag_iff_600 (id : ℚ → ℚ) flatFileQ 600 600).1.mpr
      ⟨le_refl _, le_refl _⟩
  · exact (zoomFlag_iff_600 (id : ℚ → ℚ) flatFileQ 600 600).2.1
      ⟨le_refl _, le_refl _⟩
  · exact (zoomFlag_iff_600 (id : ℚ → ℚ) flatFileQ 601 700).2.2 (by omega)

/-- The multipliers for header object none and filter w are 1 for
either value of colour. -/
lemma planetParams_none_w_any (c : Bool) : planetParams "none" "w" c = (1, 1) := by
  cases c <;> decide

/-- A 1x1 FITS frame holding the value 0 (below the cutoff). -/
def fzero : FitsFile ℝ := ⟨⟨1, 1, fun _ _ => 0⟩, "w", "none"⟩

/-- The all-zero 1x1 real array. -/
def zeroArrR : Arr2 ℝ := ⟨1, 1, fun _ _ => 0⟩

/-- The constant-255 1x1 real array. -/
def maxArrR : Arr2 ℝ := ⟨1, 1, fun _ _ => 255⟩

/-- The display stage of the zero frame is the zero array: the value is
zeroed by the cutoff and the square root of 0 is 0. -/
lemma displayStage_fzero (c : Bool) :
    displayStage Real.sqrt fzero c = zeroArrR := by
  simp only [displayStage, Arr2.map, applyCutoff, fzero, planetParams_none_w_any c,
    zeroArrR]
  congr 1
  funext i j
  rw [if_pos (by norm_num : (0 : ℝ) < 200)]
  simp

/-- The display stage of fileHi is the constant array 300 = sqrt 90000. -/
lemma displayStage_fileHi (c : Bool) :
    displayStage Real.sqrt fileHi c = ⟨1, 1, fun _ _ => 300⟩ := by
  simp only [displayStage, Arr2.map, applyCutoff, fileHi, planetParams_none_w_any c]
  congr 1
  funext i j
  rw [if_neg (by norm_num : ¬((90000 : ℝ) < 200))]
  rw [show (90000 : ℝ) = 300 ^ 2 by norm_num,
    Real.sqrt_sq (by norm_num : (0 : ℝ) ≤ 300)]
  push_cast
  ring

/-- Scaling the zero frame gives the zero array: its maximum 0 does not
exceed 255, so no normalization happens. -/
lemma pid_fzero : planetImageDataWith Real.sqrt fzero true = zeroArrR := by
  simp only [planetImageDataWith, displayStage_fzero]
  have hm : maxVal zeroArrR = 0 := by rw [maxVal_one _ rfl rfl]; rfl
  rw [hm, if_neg (by norm_num)]

/-- Scaling fileHi gives the constant array 255: the display maximum
300 exceeds 255 and normalization rescales it to exactly 255. -/
lemma pid_fileHi : planetImageDataWith Real.sqrt fileHi true = maxArrR := by
  simp only [planetImageDataWith, displayStage_fileHi]
  have hm : maxVal (⟨1, 1, fun _ _ => 300⟩ : Arr2 ℝ) = 300 := by
    rw [maxVal_one _ rfl rfl]
  rw [hm, if_pos (by norm_num : (255 : ℝ) < 300)]
  simp only [Arr2.map, maxArrR]
  congr 1
  funext i j
  norm_num

/-- In the Option monad, mapping an always-successful function over a
list succeeds with the pointwise map. -/
lemma mapM_some {α β : Type} (g : α → β) (l : List α) :
    l.mapM (fun x => some (g x)) = some (l.map g) := by
  induction l with
  | nil => rfl
  | cons a t ih => rw [List.mapM_cons, ih]; rfl

/-- On the no-zoom path with at least 3 files, planet_image_to_jpg is
the stack of all the colour-scaled frames. -/
lemma planetImageToJpg_noZoom_eq {α : Type} [LinearOrderedField α]
    [FloorRing α] (sq : α → α) (files : List (FitsFile α)) (h w : Int)
    (hlen : 3 ≤ files.length) (hz : zoomFlag h w = false) :
    planetImageToJpg sq files h w =
      stackImages (files.map (fun f => planetImageDataWith sq f true)) := by
  simp only [planetImageToJpg, hz]
  rw [if_pos hlen]
  simp only [Bool.false_eq_true, if_false]
  rw [mapM_some]
  rfl

/-- stackImages succeeds on a nonempty list of same-shape frames and
returns one uint8 channel per frame, in order. -/
lemma stackImages_cons_eq {α : Type} [LinearOrderedField α] [FloorRing α]
    (a : Arr2 α) (rest : List (Arr2 α))
    (hsh : rest.all (fun b => b.rows == a.rows && b.cols == a.cols) = true) :
    stackImages (a :: rest) = some ⟨(a :: rest).map toUint8⟩ := by
  simp only [stackImages]
  rw [if_pos hsh]

/-- In the Option monad, a successful mapM produces one result per
list element: the result of the per-element computation, in order. -/
lemma mapM_eq_some_spec {α β : Type} (g : α → Option β) :
    ∀ (l : List α) (res : List β), l.mapM g = some res →
      res.length = l.length ∧ ∀ k : Nat, res[k]? = (l[k]?).bind g := by
  intro l
  induction l with
  | nil =>
    intro res hres
    rw [List.mapM_nil] at hres
    have hres' : ([] : List β) = res := by simpa using hres
    subst hres'
    exact ⟨rfl, fun k => by simp⟩
  | cons a t ih =>
    intro res hres
    rw [List.mapM_cons] at hres
    cases hga : g a with
    | none => rw [hga] at hres; simp at hres
    | some b =>
      rw [hga] at hres
      cases hmt : t.mapM g with
      | none => rw [hmt] at hres; simp at hres
      | some bs =>
        rw [hmt] at hres
        have hres' : b :: bs = res := by simpa using hres
        subst hres'
        obtain ⟨hl, hk⟩ := ih bs hmt
        refine ⟨by simp [hl], ?_⟩
        intro k
        cases k with
        | zero => simp [hga]
        | succ k =>
          simp only [List.getElem?_cons_succ]
          rw [hk k]

/-- Claim C7 (amended): when planet_image_to_jpg is given 3 or more
filenames, the loop iterates over every listed filename, not only the
first 3: each file is loaded, scaled with colour=true, cropped through
find_planet exactly when zoom is set, and stacked in order.  On the
non-zoom path the result is the stack of all the scaled frames, and on
either path every produced image has exactly one channel per given
filename — channel k being the uint8 cast of the processed k-th file —
so filenames beyond the third do affect the result. -/
theorem planetImageToJpg_stacks_all {α : Type} [LinearOrderedField α]
    [FloorRing α] (sq : α → α) (files : List (FitsFile α)) (h w : Int)
    (hlen : 3 ≤ files.length) :
    (zoomFlag h w = false →
      planetImageToJpg sq files h w =
        stackImages (files.map (fun f => planetImageDataWith sq f true))) ∧
    planetImageToJpg sq files h w =
      (files.mapM (fun f =>
        if zoomFlag h w = true then findPlanet (planetImageDataWith sq f true)
        else some (planetImageDataWith sq f true))).bind stackImages ∧
    ∀ img, planetImageToJpg sq files h w = some img →
      img.channels.length = files.length ∧
      ∀ k : Nat, img.channels[k]? =
        ((files[k]?).bind (fun f =>
          if zoomFlag h w = true then findPlanet (planetImageDataWith sq f true)
          else some (planetImageDataWith sq f true))).map toUint8 := by
  have hbranch : planetImageToJpg sq files h w =
      (files.mapM (fun f =>
        if zoomFlag h w = true then findPlanet (planetImageDataWith sq f true)
        else some (planetImageDataWith sq f true))).bind stackImages := by
    simp only [planetImageToJpg]
    rw [if_pos hlen]
  refine ⟨planetImageToJpg_noZoom_eq sq files h w hlen, hbranch, ?_⟩
  intro img himg
  rw [hbranch] at himg
  cases hm : files.mapM (fun f =>
      if zoomFlag h w = true then findPlanet (planetImageDataWith sq f true)
      else some (planetImageDataWith sq f true)) with
  | none =>
    rw [hm] at himg
    exact absurd himg (by simp)
  | some stack =>
    rw [hm] at himg
    simp only [Option.some_bind] at himg
    obtain ⟨hslen, hsk⟩ := mapM_eq_some_spec _ files stack hm
    cases stack with
    | nil => exact absurd himg (by simp [stackImages])
    | cons a rest =>
      simp only [stackImages] at himg
      by_cases hsh : rest.all (fun b => b.rows == a.rows && b.cols == a.cols) = true
      · rw [if_pos hsh] at himg
        have himg' : img = ⟨(a :: rest).map toUint8⟩ := (Option.some.inj himg).symm
        subst himg'
        refine ⟨?_, ?_⟩
        · show ((a :: rest).map toUint8).length = files.length
          rw [List.length_map]
          exact hslen
        · intro k
          show ((a :: rest).map toUint8)[k]? = _
          rw [List.getElem?_map, hsk k]
      · rw [if_neg hsh] at himg
        exact absurd himg (by simp)

/-- A 3x3 all-zero FITS frame, small enough to evaluate the zoom path
concretely. -/
def f33 : FitsFile ℝ := ⟨⟨3, 3, fun _ _ => 0⟩, "w", "none"⟩

/-- The display stage of the 3x3 zero frame is the 3x3 zero array. -/
lemma displayStage_f33 (c : Bool) :
    displayStage Real.sqrt f33 c = ⟨3, 3, fun _ _ => 0⟩ := by
  simp only [displayStage, Arr2.map, applyCutoff, f33, planetParams_none_w_any c]
  congr 1
  funext i j
  rw [if_pos (by norm_num : (0 : ℝ) < 200)]
  simp

/-- The maximum of the 3x3 zero array is 0. -/
lemma maxVal_const0_33 : maxVal (⟨3, 3, fun _ _ => (0 : ℝ)⟩ : Arr2 ℝ) = 0 :=
  maxLin_eq _ 0 (by norm_num) (fun k hk => le_refl 0) ⟨0, by norm_num, rfl⟩

/-- Scaling the 3x3 zero frame gives the 3x3 zero array (maximum 0, no
normalization). -/
lemma pid_f33 : planetImageDataWith Real.sqrt f33 true = ⟨3, 3, fun _ _ => 0⟩ := by
  simp only [planetImageDataWith, displayStage_f33]
  rw [maxVal_const0_33, if_neg (by norm_num)]

/-- find_planet succeeds on the 3x3 zero array (rebin succeeds, and the
clamped slice returns an array). -/
lemma findPlanet_f33_some :
    ∃ c, findPlanet (⟨3, 3, fun _ _ => (0 : ℝ)⟩ : Arr2 ℝ) = some c := by
  obtain ⟨r, hr, _, _, _⟩ :=
    rebin3_spec (⟨3, 3, fun _ _ => (0 : ℝ)⟩ : Arr2 ℝ) (by decide) (by decide)
      (by decide) (by decide) (by decide) (by decide) (by decide) (by decide)
  simp only [findPlanet, hr]
  exact ⟨_, rfl⟩

/-- Witness for claim C7: three copies of the zero frame at size
700x700 (no zoom) produce the stacked image with exactly three
channels, and three copies of a 3x3 zero frame at size 300x300 (zoom,
cropped through find_planet) also produce an image with exactly three
channels. -/
theorem planetImageToJpg_stacks_all_witness :
    planetImageToJpg Real.sqrt [fzero, fzero, fzero] 700 700 =
      stackImages ([fzero, fzero, fzero].map
        (fun f => planetImageDataWith Real.sqrt f true)) ∧
    (planetImageToJpg Real.sqrt [fzero, fzero, fzero] 700 700).map
      (fun img => img.channels.length) = some 3 ∧
    (planetImageToJpg Real.sqrt [f33, f33, f33] 300 300).map
      (fun img => img.channels.length) = some 3 := by
  have happ := planetImageToJpg_stacks_all Real.sqrt [fzero, fzero, fzero]
    700 700 (by norm_num)
  have hval : planetImageToJpg Real.sqrt [fzero, fzero, fzero] 700 700 =
      some ⟨[toUint8 zeroArrR, toUint8 zeroArrR, toUint8 zeroArrR]⟩ := by
    rw [happ.1 (by simp [zoomFlag])]
    simp only [List.map_cons, List.map_nil, pid_fzero]
    rw [stackImages_cons_eq _ _ (by rfl)]
    rfl
  refine ⟨happ.1 (by simp [zoomFlag]), ?_, ?_⟩
  · rw [hval]
    exact congrArg some ((happ.2.2 _ hval).1)
  · obtain ⟨c, hc⟩ := findPlanet_f33_some
    have hz300 : zoomFlag 300 300 = true := by decide
    have happ3 := planetImageToJpg_stacks_all Real.sqrt [f33, f33, f33]
      300 300 (by norm_num)
    have hstep : ∀ f : FitsFile ℝ,
        (if zoomFlag 300 300 = true
          then findPlanet (planetImageDataWith Real.sqrt f true)
          else some (planetImageDataWith Real.sqrt f true)) =
        findPlanet (planetImageDataWith Real.sqrt f true) :=
      fun f => if_pos hz300
    have hmapM : [f33, f33, f33].mapM (fun f =>
        if zoomFlag 300 300 = true
        then findPlanet (planetImageDataWith Real.sqrt f true)
        else some (planetImageDataWith Real.sqrt f true)) = some [c, c, c] := by
      rw [List.mapM_cons, List.mapM_cons, List.mapM_cons, List.mapM_nil]
      simp only [hstep, pid_f33, hc, Option.some_bind]
      rfl
    have hval3 : planetImageToJpg Real.sqrt [f33, f33, f33] 300 300 =
        some ⟨[toUint8 c, toUint8 c, toUint8 c]⟩ := by
      rw [happ3.2.1, hmapM]
      simp only [Option.some_bind]
      rw [stackImages_cons_eq c [c, c] (by simp)]
      rfl
    rw [hval3]
    exact congrArg some ((happ3.2.2 _ hval3).1)

/-- Counterexample to claim C7 as stated: with four filenames the
fourth frame is also loaded and stacked (four channels, not three),
and two four-file lists agreeing on their first three files but
differing in the fourth give different outputs (the fourth channel
entry is 0 in one and 255 in the other). -/
theorem planetImageToJpg_counterexample :
    (planetImageToJpg Real.sqrt [fzero, fzero, fzero, fzero] 700 700).map
      (fun img => img.channels.length) = some 4 ∧
    (planetImageToJpg Real.sqrt [fzero, fzero, fzero, fzero] 700 700).map
      (fun img => (img.channels[3]?).map (fun ch => ch.data 0 0)) =
        some (some 0) ∧
    (planetImageToJpg Real.sqrt [fzero, fzero, fzero, fileHi] 700 700).map
      (fun img => (img.channels[3]?).map (fun ch => ch.data 0 0)) =
        some (some 255) ∧
    [fzero, fzero, fzero, fzero].take 3 = [fzero, fzero, fzero, fileHi].take 3 ∧
    planetImageToJpg Real.sqrt [fzero, fzero, fzero, fzero] 700 700 ≠
      planetImageToJpg Real.sqrt [fzero, fzero, fzero, fileHi] 700 700 := by
  have hA : planetImageToJpg Real.sqrt [fzero, fzero, fzero, fzero] 700 700 =
      some ⟨[toUint8 zeroArrR, toUint8 zeroArrR, toUint8 zeroArrR,
        toUint8 zeroArrR]⟩ := by
    rw [planetImageToJpg_noZoom_eq Real.sqrt _ 700 700 (by norm_num)
      (by simp [zoomFlag])]
    simp only [List.map_cons, List.map_nil, pid_fzero]
    rw [stackImages_cons_eq _ _ (by rfl)]
    rfl
  have hB : planetImageToJpg Real.sqrt [fzero, fzero, fzero, fileHi] 700 700 =
      some ⟨[toUint8 zeroArrR, toUint8 zeroArrR, toUint8 zeroArrR,
        toUint8 maxArrR]⟩ := by
    rw [planetImageToJpg_noZoom_eq Real.sqrt _ 700 700 (by norm_num)
      (by simp [zoomFlag])]
    simp only [List.map_cons, List.map_nil, pid_fzero, pid_fileHi]
    rw [stackImages_cons_eq _ _ (by rfl)]
    rfl
  have hA3 : (planetImageToJpg Real.sqrt [fzero, fzero, fzero, fzero]
      700 700).map (fun img => (img.channels[3]?).map (fun ch => ch.data 0 0)) =
        some (some 0) := by
    rw [hA]
    simp only [Option.map_some', List.getElem?_cons_succ,
      List.getElem?_cons_zero]
    simp [toUint8, zeroArrR]
  have hB3 : (planetImageToJpg Real.sqrt [fzero, fzero, fzero, fileHi]
      700 700).map (fun img => (img.channels[3]?).map (fun ch => ch.data 0 0)) =
        some (some 255) := by
    rw [hB]
    simp only [Option.map_some', List.getElem?_cons_succ,
      List.getElem?_cons_zero]
    simp [toUint8, maxArrR]
  refine ⟨by rw [hA]; rfl, hA3, hB3, rfl, ?_⟩
  intro heq
  rw [heq] at hA3
  rw [hA3] at hB3
  have h255 : ((0 : Int) = 255) := by
    have := Option.some.inj (Option.some.inj hB3)
    exact this
  norm_num at h255

/-- Claim C10: with 0 or 2 filenames neither the 3-or-more branch nor
the exactly-1 branch of planet_image_to_jpg executes, the local image
variable is never assigned, and the call raises an unbound-name error
before the resize and save steps, so no image value is produced and no
file is written at the output path (modelled: the result is none). -/
theorem planetImageToJpg_unsupported_none {α : Type} [LinearOrderedField α]
    [FloorRing α] (sq : α → α) (files : List (FitsFile α)) (h w : Int)
    (hlen : files.length = 0 ∨ files.length = 2) :
    planetImageToJpg sq files h w = none := by
  simp only [planetImageToJpg]
  rw [if_neg (by omega), if_neg (by omega)]

/-- Witness for claim C10 at concrete inputs: the empty list and a
two-file list both produce no image. -/
theorem planetImageToJpg_unsupported_none_witness :
    planetImageToJpg Real.sqrt ([] : List (FitsFile ℝ)) 300 300 = none ∧
    planetImageToJpg Real.sqrt [fzero, fzero] 300 300 = none :=
  ⟨planetImageToJpg_unsupported_none Real.sqrt [] 300 300 (Or.inl rfl),
   planetImageToJpg_unsupported_none Real.sqrt [fzero, fzero] 300 300
     (Or.inr rfl)⟩

/-- Python str.endswith applied to the path separator: the last
character is a slash. -/
def endsWithSep (s : String) : Bool := s.data.getLast? == some '/'

/-- posixpath.join for two components, as called by end_with_slash:

    if b.startswith(sep): path = b
    elif not a or a.endswith(sep): path = a + b
    else: path = a + sep + b
-/
def pyPathJoin (a b : String) : String :=
  if b.data.head? == some '/' then b
  else if a = "" ∨ endsWithSep a = true then a ++ b
  else a ++ "/" ++ b

/-- Model of Settings.end_with_slash, which is os.path.join(path, ''). -/
def end_with_slash (path : String) : String := pyPathJoin path ""

/-- Model of Settings.set_value: the override mapping wins when the key
is present there, otherwise the environment variable, otherwise the
default; URL/path-like values are then passed through end_with_slash.
The override mapping and the environment are partial maps; a `none`
default models the Python None used for STORAGE_URL. -/
def set_value (ov env : String → Option String) (envVar : String)
    (default : Option String) (mustEndWithSlash : Bool) : Option String :=
  let value :=
    match ov envVar with
    | some v => some v
    | none =>
      match env envVar with
      | some v => some v
      | none => default
  if mustEndWithSlash then value.map end_with_slash else value

/-- Python str.strip(',') : remove all leading and trailing commas. -/
def pyStripCommas (s : String) : String :=
  ⟨((s.data.dropWhile (fun c => c == ',')).reverse.dropWhile
    (fun c => c == ',')).reverse⟩

/-- Python str.replace(' ', '') : remove every space character. -/
def pyRemoveSpaces (s : String) : String :=
  ⟨s.data.filter (fun c => c != ' ')⟩

/-- Python str.split(',') on the character list: empty segments are
kept, and the empty string yields a single empty segment. -/
def splitCommaList : List Char → List (List Char)
  | [] => [[]]
  | c :: rest =>
    if c = ',' then [] :: splitCommaList rest
    else
      match splitCommaList rest with
      | [] => [[c]]
      | t :: ts => (c :: t) :: ts

/-- Python str.split(',') on strings. -/
def pySplitComma (s : String) : List String :=
  (splitCommaList s.data).map (fun l => ⟨l⟩)

/-- Model of Settings.get_tuple_from_environment:

    tuple(os.getenv(variable_name, default).strip(',').replace(' ', '').split(','))

Note that only the environment is consulted — the override mapping
self._settings is not. -/
def get_tuple_from_environment (env : String → Option String)
    (variableName default : String) : List String :=
  pySplitComma (pyRemoveSpaces (pyStripCommas ((env variableName).getD default)))

/-- The resolved configuration snapshot built by Settings.__init__. -/
structure SettingsModel where
  ARCHIVE_API_URL : Option String
  TMP_DIR : Option String
  AWS_BUCKET : Option String
  AWS_ACCESS_KEY_ID : Option String
  AWS_SECRET_ACCESS_KEY : Option String
  AWS_DEFAULT_REGION : Option String
  STORAGE_URL : Option String
  REQUIRED_FRAME_VALIDATION_KEYS : List String
  VALID_CONFIGURATION_TYPES : List String
  VALID_CONFIGURATION_TYPES_FOR_COLOR_THUMBS : List String

/-- Model of Settings.__init__ with override mapping ov and process
environment env, using the hard-coded defaults of the source. -/
def mkSettings (ov env : String → Option String) : SettingsModel where
  ARCHIVE_API_URL := set_value ov env "ARCHIVE_API_URL" (some "http://localhost/") true
  TMP_DIR := set_value ov env "TMP_DIR" (some "/tmp/") true
  AWS_BUCKET := set_value ov env "AWS_BUCKET" (some "changeme") false
  AWS_ACCESS_KEY_ID := set_value ov env "AWS_ACCESS_KEY_ID" (some "changeme") false
  AWS_SECRET_ACCESS_KEY := set_value ov env "AWS_SECRET_ACCESS_KEY" (some "changeme") false
  AWS_DEFAULT_REGION := set_value ov env "AWS_DEFAULT_REGION" (some "us-west-2") false
  STORAGE_URL := set_value ov env "STORAGE_URL" none false
  REQUIRED_FRAME_VALIDATION_KEYS := get_tuple_from_environment env
    "REQUIRED_FRAME_VALIDATION_KEYS" "configuration_type,request_id,filename"
  VALID_CONFIGURATION_TYPES := get_tuple_from_environment env
    "VALID_CONFIGURATION_TYPES"
    "ARC,BIAS,BPM,DARK,DOUBLE,EXPERIMENTAL,EXPOSE,GUIDE,LAMPFLAT,SKYFLAT,SPECTRUM,STANDARD,TARGET,TRAILED"
  VALID_CONFIGURATION_TYPES_FOR_COLOR_THUMBS := get_tuple_from_environment env
    "VALID_CONFIGURATION_TYPES_FOR_COLOR_THUMBS" "EXPOSE,STANDARD"

/-- The empty environment / empty override mapping. -/
def envEmpty : String → Option String := fun _ => none

/-- Claim C8 (amended): for the scalar settings keys the resolved value
follows the precedence override, then environment, then default (with
slash normalization applied afterwards for the URL/path-like keys),
and every scalar field of the snapshot is resolved through set_value
with its key, default and slash flag; the three list-valued keys,
however, are resolved by get_tuple_from_environment, which consults
only the environment variable and the default — the override mapping
has no effect on them, the environment value is parsed when set, and
the hard-coded default is parsed otherwise. -/
theorem settings_precedence (ov env : String → Option String) (key : String)
    (d : Option String) (slash : Bool) :
    (∀ v, ov key = some v →
      set_value ov env key d slash =
        if slash then some (end_with_slash v) else some v) ∧
    (ov key = none → ∀ e, env key = some e →
      set_value ov env key d slash =
        if slash then some (end_with_slash e) else some e) ∧
    (ov key = none → env key = none →
      set_value ov env key d slash =
        if slash then d.map end_with_slash else d) ∧
    ((mkSettings ov env).ARCHIVE_API_URL =
        set_value ov env "ARCHIVE_API_URL" (some "http://localhost/") true ∧
      (mkSettings ov env).TMP_DIR =
        set_value ov env "TMP_DIR" (some "/tmp/") true ∧
      (mkSettings ov env).AWS_BUCKET =
        set_value ov env "AWS_BUCKET" (some "changeme") false ∧
      (mkSettings ov env).AWS_ACCESS_KEY_ID =
        set_value ov env "AWS_ACCESS_KEY_ID" (some "changeme") false ∧
      (mkSettings ov env).AWS_SECRET_ACCESS_KEY =
        set_value ov env "AWS_SECRET_ACCESS_KEY" (some "changeme") false ∧
      (mkSettings ov env).AWS_DEFAULT_REGION =
        set_value ov env "AWS_DEFAULT_REGION" (some "us-west-2") false ∧
      (mkSettings ov env).STORAGE_URL =
        set_value ov env "STORAGE_URL" none false) ∧
    (∀ ov2 : String → Option String,
      (mkSettings ov2 env).REQUIRED_FRAME_VALIDATION_KEYS =
        (mkSettings ov env).REQUIRED_FRAME_VALIDATION_KEYS ∧
      (mkSettings ov2 env).VALID_CONFIGURATION_TYPES =
        (mkSettings ov env).VALID_CONFIGURATION_TYPES ∧
      (mkSettings ov2 env).VALID_CONFIGURATION_TYPES_FOR_COLOR_THUMBS =
        (mkSettings ov env).VALID_CONFIGURATION_TYPES_FOR_COLOR_THUMBS) ∧
    (∀ e, env "REQUIRED_FRAME_VALIDATION_KEYS" = some e →
      (mkSettings ov env).REQUIRED_FRAME_VALIDATION_KEYS =
        pySplitComma (pyRemoveSpaces (pyStripCommas e))) ∧
    (env "REQUIRED_FRAME_VALIDATION_KEYS" = none →
      (mkSettings ov env).REQUIRED_FRAME_VALIDATION_KEYS =
        pySplitComma (pyRemoveSpaces (pyStripCommas
          "configuration_type,request_id,filename"))) ∧
    (∀ e, env "VALID_CONFIGURATION_TYPES" = some e →
      (mkSettings ov env).VALID_CONFIGURATION_TYPES =
        pySplitComma (pyRemoveSpaces (pyStripCommas e))) ∧
    (env "VALID_CONFIGURATION_TYPES" = none →
      (mkSettings ov env).VALID_CONFIGURATION_TYPES =
        pySplitComma (pyRemoveSpaces (pyStripCommas
          "ARC,BIAS,BPM,DARK,DOUBLE,EXPERIMENTAL,EXPOSE,GUIDE,LAMPFLAT,SKYFLAT,SPECTRUM,STANDARD,TARGET,TRAILED"))) ∧
    (∀ e, env "VALID_CONFIGURATION_TYPES_FOR_COLOR_THUMBS" = some e →
      (mkSettings ov env).VALID_CONFIGURATION_TYPES_FOR_COLOR_THUMBS =
        pySplitComma (pyRemoveSpaces (pyStripCommas e))) ∧
    (env "VALID_CONFIGURATION_TYPES_FOR_COLOR_THUMBS" = none →
      (mkSettings ov env).VALID_CONFIGURATION_TYPES_FOR_COLOR_THUMBS =
        pySplitComma (pyRemoveSpaces (pyStripCommas "EXPOSE,STANDARD"))) := by
  refine ⟨?_, ?_, ?_, ⟨rfl, rfl, rfl, rfl, rfl, rfl, rfl⟩,
    fun ov2 => ⟨rfl, rfl, rfl⟩, ?_, ?_, ?_, ?_, ?_, ?_⟩
  · intro v hv
    cases slash <;> simp [set_value, hv]
  · intro h0 e he
    cases slash <;> simp [set_value, h0, he]
  · intro h0 h1
    cases slash <;> simp [set_value, h0, h1]
  · intro e he
    show get_tuple_from_environment env "REQUIRED_FRAME_VALIDATION_KEYS" _ = _
    simp [get_tuple_from_environment, he]
  · intro he
    show get_tuple_from_environment env "REQUIRED_FRAME_VALIDATION_KEYS" _ = _
    simp [get_tuple_from_environment, he]
  · intro e he
    show get_tuple_from_environment env "VALID_CONFIGURATION_TYPES" _ = _
    simp [get_tuple_from_environment, he]
  · intro he
    show get_tuple_from_environment env "VALID_CONFIGURATION_TYPES" _ = _
    simp [get_tuple_from_environment, he]
  · intro e he
    show get_tuple_from_environment env
      "VALID_CONFIGURATION_TYPES_FOR_COLOR_THUMBS" _ = _
    simp [get_tuple_from_environment, he]
  · intro he
    show get_tuple_from_environment env
      "VALID_CONFIGURATION_TYPES_FOR_COLOR_THUMBS" _ = _
    simp [get_tuple_from_environment, he]

/-- An override mapping setting only AWS_BUCKET, as in the spec's
settings example. -/
def ovBucket : String → Option String :=
  fun k => if k = "AWS_BUCKET" then some "x" else none

/-- An environment setting only AWS_BUCKET. -/
def envBucket : String → Option String :=
  fun k => if k = "AWS_BUCKET" then some "y" else none

/-- An environment setting only the list-valued color-thumbnail key,
with stray spaces and trailing commas to exercise the parsing. -/
def envColorTypes : String → Option String :=
  fun k => if k = "VALID_CONFIGURATION_TYPES_FOR_COLOR_THUMBS"
    then some "EXPOSE , STANDARD ,," else none

/-- Witness for claim C8: for AWS_BUCKET an override wins, an
environment value is used when no override is present, and the default
changeme applies when neither is set; for the list-valued keys a set
environment variable is parsed and an unset one falls back to the
parsed hard-coded default (with the override mapping never consulted). -/
theorem settings_precedence_witness :
    set_value ovBucket envBucket "AWS_BUCKET" (some "changeme") false = some "x" ∧
    set_value envEmpty envBucket "AWS_BUCKET" (some "changeme") false = some "y" ∧
    set_value envEmpty envEmpty "AWS_BUCKET" (some "changeme") false =
      some "changeme" ∧
    (mkSettings envEmpty envColorTypes).VALID_CONFIGURATION_TYPES_FOR_COLOR_THUMBS =
      ["EXPOSE", "STANDARD"] ∧
    (mkSettings ovBucket envEmpty).REQUIRED_FRAME_VALIDATION_KEYS =
      ["configuration_type", "request_id", "filename"] := by
  refine ⟨?_, ?_, ?_, ?_, ?_⟩
  · have h := (settings_precedence ovBucket envBucket "AWS_BUCKET"
      (some "changeme") false).1 "x" (by decide)
    simpa using h
  · have h := (settings_precedence envEmpty envBucket "AWS_BUCKET"
      (some "changeme") false).2.1 rfl "y" (by decide)
    simpa using h
  · have h := (settings_precedence envEmpty envEmpty "AWS_BUCKET"
      (some "changeme") false).2.2.1 rfl rfl
    simpa using h
  · have h := (settings_precedence envEmpty envColorTypes "AWS_BUCKET"
      (some "changeme") false).2.2.2.2.2.2.2.2.2.1
      "EXPOSE , STANDARD ,," (by decide)
    rw [h]
    decide
  · have h := (settings_precedence ovBucket envEmpty "AWS_BUCKET"
      (some "changeme") false).2.2.2.2.2.2.1 rfl
    rw [h]
    decide

/-- An override mapping that sets the list-valued key
REQUIRED_FRAME_VALIDATION_KEYS. -/
def ovListKey : String → Option String :=
  fun k => if k = "REQUIRED_FRAME_VALIDATION_KEYS" then some "x" else none

/-- Counterexample to claim C8 as stated: with the override mapping
setting REQUIRED_FRAME_VALIDATION_KEYS to x and an empty environment,
the resolved value is the parsed hard-coded default, not the override:
get_tuple_from_environment never consults the override mapping. -/
theorem settings_precedence_counterexample :
    ovListKey "REQUIRED_FRAME_VALIDATION_KEYS" = some "x" ∧
    (mkSettings ovListKey envEmpty).REQUIRED_FRAME_VALIDATION_KEYS =
      ["configuration_type", "request_id", "filename"] ∧
    (["configuration_type", "request_id", "filename"] : List String) ≠
      ["x"] := by
  refine ⟨by decide, by decide, by decide⟩

/-- After end_with_slash, a value is either the unchanged empty string
or ends with a separator. -/
lemma end_with_slash_cases (r : String) :
    (r = "" ∧ end_with_slash r = "") ∨
    endsWithSep (end_with_slash r) = true := by
  by_cases h0 : r = ""
  · subst h0
    exact Or.inl ⟨rfl, by decide⟩
  · right
    by_cases hs : endsWithSep r = true
    · have heq : end_with_slash r = r := by
        simp [end_with_slash, pyPathJoin, hs]
      rw [heq]
      exact hs
    · have heq : end_with_slash r = r ++ "/" := by
        simp [end_with_slash, pyPathJoin, hs, h0]
      rw [heq]
      simp only [endsWithSep, String.data_append]
      rw [List.getLast?_concat]
      rfl

/-- Claim C9 (amended): for the URL/path-like keys ARCHIVE_API_URL and
TMP_DIR, every nonempty resolved value ends with at least one path
separator: end_with_slash appends a single separator when the value
does not already end with one, and returns a value already ending in
one or more separators unchanged — so a value that already ends with
several separators keeps all of them, and the empty string stays
empty. -/
theorem end_with_slash_spec (p : String) (ov env : String → Option String) :
    (endsWithSep p = false → p ≠ "" → end_with_slash p = p ++ "/") ∧
    (endsWithSep p = true → end_with_slash p = p) ∧
    end_with_slash "" = "" ∧
    (p ≠ "" → endsWithSep (end_with_slash p) = true) ∧
    (∀ v, (mkSettings ov env).TMP_DIR = some v → v ≠ "" →
      endsWithSep v = true) ∧
    (∀ v, (mkSettings ov env).ARCHIVE_API_URL = some v → v ≠ "" →
      endsWithSep v = true) := by
  have hfield : ∀ v : String, v ≠ "" → ∀ r : String, end_with_slash r = v →
      endsWithSep v = true := by
    intro v hne r hr
    rcases end_with_slash_cases r with ⟨_, h2⟩ | h
    · exact absurd (hr ▸ h2) hne
    · exact hr ▸ h
  refine ⟨?_, ?_, by decide, ?_, ?_, ?_⟩
  · intro hf hne
    simp [end_with_slash, pyPathJoin, hf, hne]
  · intro ht
    simp [end_with_slash, pyPathJoin, ht]
  · intro hne
    rcases end_with_slash_cases p with ⟨h1, _⟩ | h
    · exact absurd h1 hne
    · exact h
  · intro v hv hne
    have hv' : Option.map end_with_slash
        (match ov "TMP_DIR" with
          | some v => some v
          | none =>
            match env "TMP_DIR" with
            | some v => some v
            | none => some "/tmp/") = some v := hv
    obtain ⟨r, _, hr⟩ := Option.map_eq_some'.mp hv'
    exact hfield v hne r hr
  · intro v hv hne
    have hv' : Option.map end_with_slash
        (match ov "ARCHIVE_API_URL" with
          | some v => some v
          | none =>
            match env "ARCHIVE_API_URL" with
            | some v => some v
            | none => some "http://localhost/") = some v := hv
    obtain ⟨r, _, hr⟩ := Option.map_eq_some'.mp hv'
    exact hfield v hne r hr

/-- An override mapping whose TMP_DIR value already ends with two
separators. -/
def ovTmp : String → Option String :=
  fun k => if k = "TMP_DIR" then some "/tmp//" else none

/-- Witness for claim C9: a separator is appended to abc, a value
already ending with one is unchanged, and the default TMP_DIR
resolution yields a separator-terminated value. -/
theorem end_with_slash_spec_witness :
    end_with_slash "abc" = "abc/" ∧
    end_with_slash "ab/" = "ab/" ∧
    endsWithSep "/tmp/" = true := by
  refine ⟨?_, ?_, ?_⟩
  · exact (end_with_slash_spec "abc" envEmpty envEmpty).1 (by decide) (by decide)
  · exact (end_with_slash_spec "ab/" envEmpty envEmpty).2.1 (by decide)
  · exact (end_with_slash_spec "" envEmpty envEmpty).2.2.2.2.1 "/tmp/"
      (by decide) (by decide)

/-- Counterexample to claim C9 as stated: with an override TMP_DIR
value of /tmp//, the stored value is /tmp// unchanged, which ends with
two path separators, not exactly one (its last two characters are both
separators). -/
theorem end_with_slash_counterexample :
    (mkSettings ovTmp envEmpty).TMP_DIR = some "/tmp//" ∧
    endsWithSep "/tmp//" = true ∧
    endsWithSep (String.mk ("/tmp//".data.dropLast)) = true := by
  refine ⟨by decide, by decide, by decide⟩
